import Mathlib

/-!
Verification of the LCD-policy discovery scripts.

The repository discovers Medicare LCD policy records by probing numeric
identifiers against the CMS coverage database, classifying fetched pages,
deduplicating results and saving a sorted catalog.  Python strings are
modelled as `List Char`; the substring operator `in` is `containsSub`;
the browser/network boundary (`page.goto`, `page.title()`, `page.content()`,
element queries) is modelled by oracle functions supplied as parameters,
where `none` stands for a raised navigation exception.
-/

/-- Boolean test that `p` is an initial segment of the second list
(models the position-anchored part of `re.search` and `str.startswith`). -/
def headMatches : List Char → List Char → Bool
  | [], _ => true
  | _ :: _, [] => false
  | p :: ps, c :: cs => p == c && headMatches ps cs

/-- Python substring test `pat in s` (case sensitive). -/
def containsSub (pat : List Char) : List Char → Bool
  | [] => pat.isEmpty
  | c :: rest => headMatches pat (c :: rest) || containsSub pat rest

/-- Python `str.strip()` (whitespace trimmed from both ends). -/
def stripChars (s : List Char) : List Char :=
  ((s.dropWhile Char.isWhitespace).reverse.dropWhile Char.isWhitespace).reverse

/-- Worker for `replaceSub`, structurally recursive on a fuel argument so
that it reduces inside the kernel; one unit of fuel is spent per consumed
character position, so `s.length` fuel always suffices. -/
def replaceSubGo (pat rep : List Char) : Nat → List Char → List Char
  | 0, s => s
  | _ + 1, [] => []
  | fuel + 1, c :: rest =>
    if headMatches pat (c :: rest) && !pat.isEmpty then
      rep ++ replaceSubGo pat rep fuel (rest.drop (pat.length - 1))
    else
      c :: replaceSubGo pat rep fuel rest

/-- Python `s.replace(pat, rep)`: left-to-right, non-overlapping.  The
`pat.isEmpty` guard is never hit by the code (its patterns are nonempty
literals); it only rules out the empty pattern, whose Python semantics
(insert `rep` at every position) the code never relies on. -/
def replaceSub (pat rep s : List Char) : List Char :=
  replaceSubGo pat rep s.length s

/-- First match of the regex `L\d+` in a string (`re.search`): the leftmost
letter L that is followed by at least one ASCII digit, with greedy digits.
Python `\d` also accepts non-ASCII digits; the repository only ever feeds
ASCII content to this pattern. -/
def findLNum : List Char → Option (List Char)
  | [] => none
  | c :: rest =>
    if c = 'L' then
      let ds := rest.takeWhile Char.isDigit
      if ds.isEmpty then findLNum rest else some (c :: ds)
    else findLNum rest

/-- The literal query prefix used by the regex `LCDId=(\d+)`. -/
def lcdIdParam : List Char := "LCDId=".toList

/-- First capture of `re.search(r'LCDId=(\d+)', href)`. -/
def findLCDId : List Char → Option (List Char)
  | [] => none
  | c :: rest =>
    if headMatches lcdIdParam (c :: rest) then
      let ds := ((c :: rest).drop 6).takeWhile Char.isDigit
      if ds.isEmpty then findLCDId rest else some ds
    else findLCDId rest

/-- The literal query prefix used by the regex `DocID=(L\d+)`. -/
def docIdParam : List Char := "DocID=L".toList

/-- First capture of `re.search(r'DocID=(L\d+)', href)`. -/
def findDocID : List Char → Option (List Char)
  | [] => none
  | c :: rest =>
    if headMatches docIdParam (c :: rest) then
      let ds := ((c :: rest).drop 7).takeWhile Char.isDigit
      if ds.isEmpty then findDocID rest else some ('L' :: ds)
    else findDocID rest

/-- Python `str(n)` for a natural number. -/
def strOfNat (n : Nat) : List Char := Nat.toDigits 10 n

/-- Python `int(s)` on the identifier strings this program produces:
succeeds exactly on nonempty all-digit strings (leading zeros allowed),
raising `ValueError` (modelled as `none`) otherwise. -/
def parseNat (s : List Char) : Option Nat :=
  if s.isEmpty then none
  else if s.all Char.isDigit then
    some (s.foldl (fun a c => a * 10 + (c.toNat - 48)) 0)
  else none

/-! ## Data model

`PolicyInfo` is the `policy_info` dictionary built by every discovery
routine; `Catalog` is the `output_data` dictionary written by the savers.
`datetime.now().isoformat()` is an external input, passed in as `now`. -/

structure PolicyInfo where
  lcd_id : List Char
  doc_id : List Char
  title : List Char
  url : List Char
  found_date : List Char
deriving DecidableEq

/-- Default record, used only to name the value inside a known-`some`
option in closed witness statements. -/
def defInfo : PolicyInfo := { lcd_id := [], doc_id := [], title := [], url := [], found_date := [] }

structure Catalog where
  search_date : List Char
  total_policies : Nat
  source : List Char
  policies : List PolicyInfo
deriving DecidableEq

/-- Result of a successful `page.goto`: the rendered page as the scripts
observe it.  `title` is `await page.title()`, `content` is
`await page.content()`, and `heading` is the text of the first heading
element found by `query_selector("h1, .title, #title")` (or `h1`), with
`none` when no such element exists. -/
structure PageData where
  title : List Char
  content : List Char
  heading : Option (List Char)
deriving DecidableEq

/-- One anchor element on a results page: its `href` attribute and inner
text. -/
structure LinkData where
  href : List Char
  text : List Char
deriving DecidableEq

/-- One search-results page, as consumed by the pagination loop of
`extract_all_lcd_results`: the anchors matched by its result selectors
(modelled as one list) and whether a next-page link is found. -/
structure ResultsPage where
  links : List LinkData
  hasNext : Bool
deriving DecidableEq

/-- The mutable finder state shared by the discovery strategies:
`self.lcd_urls` and `self.processed_ids` (the set modelled as a list,
only membership is used). -/
structure FinderState where
  lcd_urls : List PolicyInfo
  processed : List (List Char)
deriving DecidableEq

/-! ## Marker strings of the classifiers -/

def lcdLongMark : List Char := "Local Coverage Determination".toList
def lcdMark : List Char := "LCD".toList
def errMark : List Char := "Error".toList
def nfMark : List Char := "Not Found".toList
def searchMark : List Char := "Search".toList
def cmsSuffix : List Char := " - CMS".toList
def sourceMark : List Char := "CMS Medicare Coverage Database".toList

/-- Probe URL `f"https://www.cms.gov/medicare-coverage-database/view/lcd.aspx?LCDId={lcd_id}"`. -/
def lcdViewUrl (id : Nat) : List Char :=
  "https://www.cms.gov/medicare-coverage-database/view/lcd.aspx?LCDId=".toList ++ strOfNat id

/-! ## Page classifiers -/

/-- The validity condition of `SimpleLCDFinder.validate_lcd_url`
(Step2_Find_allPolicy_URLs_Simple.py lines 43-44).  Python precedence
parses the source condition as
`A or (B and C and D)`, so the body marker alone suffices. -/
def simpleValidCond (title content : List Char) : Bool :=
  containsSub lcdLongMark content ||
    (containsSub lcdMark title && !containsSub errMark title && !containsSub nfMark title)

/-- The validity condition of `quick_find_lcd_policies`
(Step2_Quick_LCD_Finder.py lines 60-63); it consults only the title. -/
def quickValidCond (title : List Char) : Bool :=
  containsSub lcdMark title && !containsSub errMark title &&
    !containsSub nfMark title && !containsSub searchMark title

/-- Title extraction shared by the Simple and Quick finders: heading text
when a heading element exists, else `title.replace(" - CMS", "")`.
The final `.strip()` is applied where the record is built.  The unreachable
except-path placeholder (`f"LCD Policy L{lcd_id}"`, taken only when the
element query itself raises) is not modelled. -/
def extractTitle (pg : PageData) : List Char :=
  match pg.heading with
  | some h => h
  | none => replaceSub cmsSuffix [] pg.title

/-- Embedding of `SimpleLCDFinder.validate_lcd_url`, given the outcome of the
navigation (`none` = `page.goto`/consent handling raised, caught by the
outer `except`, function returns `None`). -/
def validate_lcd_url (now : List Char) (id : Nat) (outcome : Option PageData) : Option PolicyInfo :=
  match outcome with
  | none => none
  | some pg =>
    if simpleValidCond pg.title pg.content then
      some { lcd_id := strOfNat id,
             doc_id := (findLNum pg.content).getD ('L' :: strOfNat id),
             title := stripChars (extractTitle pg),
             url := lcdViewUrl id,
             found_date := now }
    else none


/-! ## Quick finder (Step2_Quick_LCD_Finder.py) -/

/-- State of the quick scan loop: `lcd_policies` and `found_count`. -/
structure QuickState where
  lcd_policies : List PolicyInfo
  found : Nat
deriving DecidableEq

/-- The record built on lines 75-81 of the quick finder. -/
def mkQuickInfo (now : List Char) (id : Nat) (pg : PageData) : PolicyInfo :=
  { lcd_id := strOfNat id,
    doc_id := 'L' :: strOfNat id,
    title := stripChars (extractTitle pg),
    url := lcdViewUrl id,
    found_date := now }

/-- One iteration of the loop in `quick_find_lcd_policies` (lines 41-89):
navigate, validate the title, append on success; any exception in the
iteration is caught and the identifier skipped silently. -/
def quickStep (now : List Char) (oracle : Nat → Option PageData) (st : QuickState) (id : Nat) :
    QuickState :=
  match oracle id with
  | none => st
  | some pg =>
    if quickValidCond pg.title then
      { lcd_policies := st.lcd_policies ++ [mkQuickInfo now id pg], found := st.found + 1 }
    else st

/-- The scan loop of `quick_find_lcd_policies` over a candidate list. -/
def quickScan (now : List Char) (oracle : Nat → Option PageData) (ids : List Nat) : QuickState :=
  ids.foldl (quickStep now oracle) { lcd_policies := [], found := 0 }

/-- The literal `test_ids` list of the quick finder (lines 16-27). -/
def quickTestIds : List Nat :=
  [33822, 35000, 35070, 33803, 33393, 38617,
   33000, 33100, 33200, 33300, 33400, 33500, 33600, 33700, 33800, 33900,
   34000, 34100, 34200, 34300, 34400, 34500, 34600, 34700, 34800, 34900,
   35100, 35200, 35300, 35400, 35500, 35600, 35700, 35800, 35900,
   36000, 36100, 36200, 36300, 36400, 36500, 36600, 36700, 36800, 36900,
   37000, 37100, 37200, 37300, 37400, 37500, 37600, 37700, 37800, 37900,
   38000, 38100, 38200, 38300, 38400, 38500, 38600, 38700, 38800, 38900,
   39000, 39100, 39200, 39300, 39400, 39500, 39600, 39700, 39800, 39900]

/-- Embedding of `quick_find_lcd_policies`: the scan over the fixed candidate list. -/
def quick_find_lcd_policies (now : List Char) (oracle : Nat → Option PageData) : QuickState :=
  quickScan now oracle quickTestIds

/-! ## Simple finder systematic scan (Step2_Find_allPolicy_URLs_Simple.py) -/

/-- One iteration of the systematic range loop (lines 114-123): the
membership check on `processed_ids` guards the whole probe, so an
already-processed identifier is neither fetched nor appended.  The
second component lists the identifiers fetched by this step. -/
def systematicStep (now : List Char) (oracle : Nat → Option PageData) (st : FinderState)
    (id : Nat) : FinderState × List Nat :=
  if strOfNat id ∈ st.processed then (st, [])
  else
    match validate_lcd_url now id (oracle id) with
    | some policy =>
      ({ lcd_urls := st.lcd_urls ++ [policy], processed := strOfNat id :: st.processed }, [id])
    | none => (st, [id])

/-! ## Full finder (Step2_Find_allPolicy_URLs.py) -/

/-- Full URL construction: the href itself when it starts with http, else the
CMS host prepended (source line 174). -/
def fullUrl (href : List Char) : List Char :=
  if headMatches "http".toList href then href else "https://www.cms.gov".toList ++ href

/-- Link title: the stripped anchor text, or a placeholder naming the document
code when the text is empty (Python truthiness: the fallback fires only on the
empty string). -/
def linkTitle (text doc_id : List Char) : List Char :=
  if text.isEmpty then "LCD Policy ".toList ++ doc_id else stripChars text

/-- One anchor processed by `extract_lcd_links` (lines 101-123): both the
`LCDId` and the `DocID` capture are required before a record is built. -/
def extractLinkStep (now : List Char) (st : FinderState) (lk : LinkData) : FinderState :=
  if containsSub "lcd.aspx".toList lk.href && containsSub lcdIdParam lk.href then
    match findLCDId lk.href, findDocID lk.href with
    | some lcd_id, some doc_id =>
      if lcd_id ∈ st.processed then st
      else
        { lcd_urls := st.lcd_urls ++
            [{ lcd_id := lcd_id, doc_id := doc_id, title := linkTitle lk.text doc_id,
               url := fullUrl lk.href, found_date := now }],
          processed := lcd_id :: st.processed }
    | _, _ => st
  else st

/-- The document code computed on lines 167-171 of
`extract_all_lcd_results`: `DocID` capture from the href, else `L\d+`
from the link text, else derived from the identifier. -/
def resultDocId (href text lcd_id : List Char) : List Char :=
  match findDocID href with
  | some d => d
  | none =>
    match findLNum text with
    | some d => d
    | none => 'L' :: lcd_id

/-- One anchor processed by `extract_all_lcd_results` (lines 160-185):
only the `LCDId` capture is required; the document code falls back. -/
def resultLinkStep (now : List Char) (st : FinderState) (lk : LinkData) : FinderState :=
  if containsSub "lcd.aspx".toList lk.href && containsSub lcdIdParam lk.href then
    match findLCDId lk.href with
    | some lcd_id =>
      let doc_id := resultDocId lk.href lk.text lcd_id
      if lcd_id ∈ st.processed then st
      else
        { lcd_urls := st.lcd_urls ++
            [{ lcd_id := lcd_id, doc_id := doc_id, title := linkTitle lk.text doc_id,
               url := fullUrl lk.href, found_date := now }],
          processed := lcd_id :: st.processed }
    | none => st
  else st

/-- Link extraction over one results page (the four selector loops of
lines 157-187, modelled as one pass over the page's anchors; repeats are
harmless because of the `processed_ids` guard). -/
def processResultsPage (now : List Char) (st : FinderState) (links : List LinkData) : FinderState :=
  links.foldl (resultLinkStep now) st

/-- The pagination loop of `extract_all_lcd_results` (lines 136-210).
`pages` maps a page number to the results page the site serves there;
the fuel counts the remaining iterations allowed by
`while page_num <= max_pages` with `max_pages = 50`.  Besides the final
state it returns the trace of processed pages paired with the
`new_count` each yielded, outermost first. -/
def extractAllGo (now : List Char) (pages : Nat → ResultsPage) :
    Nat → Nat → FinderState → FinderState × List (ResultsPage × Nat)
  | 0, _, st => (st, [])
  | fuel + 1, pageNum, st =>
    let pg := pages pageNum
    let st2 := processResultsPage now st pg.links
    let newCount := st2.lcd_urls.length - st.lcd_urls.length
    if pg.hasNext && decide (0 < newCount) then
      let rest := extractAllGo now pages fuel (pageNum + 1) st2
      (rest.1, (pg, newCount) :: rest.2)
    else (st2, [(pg, newCount)])

/-- Embedding of `extract_all_lcd_results`: pagination starting at page 1 with the
hard cap of 50 pages. -/
def extract_all_lcd_results (now : List Char) (pages : Nat → ResultsPage) (st : FinderState) :
    FinderState × List (ResultsPage × Nat) :=
  extractAllGo now pages 50 1 st

/-- State of `try_known_lcd_patterns` (lines 292-334): the shared finder
state, the local `found_count`, and the identifiers for which a
navigation was issued (every `page.goto` call). -/
structure TKState where
  st : FinderState
  found : Nat
  fetched : List Nat
deriving DecidableEq

/-- The record built on lines 315-321 of `try_known_lcd_patterns`. -/
def mkTKInfo (now : List Char) (id : Nat) (title : List Char) : PolicyInfo :=
  { lcd_id := strOfNat id,
    doc_id := 'L' :: strOfNat id,
    title := title,
    url := lcdViewUrl id,
    found_date := now }

/-- One iteration of `try_known_lcd_patterns`: the navigation happens
before any check of `processed_ids`; membership is tested only just
before appending.  The `break` on `found_count >= 10` is modelled as a
guard, which is equivalent because `found` never decreases. -/
def tryKnownStep (now : List Char) (oracle : Nat → Option PageData) (s : TKState) (id : Nat) :
    TKState :=
  if 10 ≤ s.found then s
  else
    let s1 : TKState := { s with fetched := s.fetched ++ [id] }
    match oracle id with
    | none => s1
    | some pg =>
      if containsSub lcdMark pg.title && !containsSub errMark pg.title then
        if containsSub lcdLongMark pg.content then
          if strOfNat id ∈ s1.st.processed then s1
          else
            { s1 with
              st := { lcd_urls := s1.st.lcd_urls ++ [mkTKInfo now id pg.title],
                      processed := strOfNat id :: s1.st.processed },
              found := s1.found + 1 }
        else s1
      else s1

/-- The candidate list `range(30000, 40000, 100)` of
`try_known_lcd_patterns`. -/
def tkTestIds : List Nat := (List.range 100).map (fun k => 30000 + 100 * k)

/-- Embedding of `try_known_lcd_patterns` over the shared finder state. -/
def try_known_lcd_patterns (now : List Char) (oracle : Nat → Option PageData)
    (st : FinderState) : TKState :=
  tkTestIds.foldl (tryKnownStep now oracle) { st := st, found := 0, fetched := [] }


/-! ## Catalog merger and savers -/

/-- The dedup loop of `LCDPolicyFinder.save_to_json` (lines 369-375):
walk the records in order, keeping the first record seen for each
identifier; `seen` is the `seen_ids` set. -/
def dedupFirst : List PolicyInfo → List (List Char) → List PolicyInfo
  | [], _ => []
  | r :: rest, seen =>
    if r.lcd_id ∈ seen then dedupFirst rest seen
    else r :: dedupFirst rest (r.lcd_id :: seen)

/-- The `seen_ids` set after the dedup loop has walked the given records. -/
def seenAfter : List PolicyInfo → List (List Char) → List (List Char)
  | [], seen => seen
  | r :: rest, seen =>
    if r.lcd_id ∈ seen then seenAfter rest seen
    else seenAfter rest (r.lcd_id :: seen)

/-- Numeric sort key `int(x['lcd_id'])` (total here; the saver only sorts
after checking that every identifier parses). -/
def keyOf (r : PolicyInfo) : Nat := (parseNat r.lcd_id).getD 0

/-- Sort order on records: ascending numeric identifier. -/
def polLE (a b : PolicyInfo) : Prop := keyOf a ≤ keyOf b

instance : DecidableRel polLE := fun a b => Nat.decLe (keyOf a) (keyOf b)

instance : IsTotal PolicyInfo polLE := ⟨fun a b => Nat.le_total (keyOf a) (keyOf b)⟩

instance : IsTrans PolicyInfo polLE := ⟨fun _ _ _ hab hbc => Nat.le_trans hab hbc⟩

/-- Python `list.sort(key=lambda x: int(x['lcd_id']))`, a stable sort;
insertion sort is stable with this insertion rule. -/
def sortPolicies (l : List PolicyInfo) : List PolicyInfo := List.insertionSort polLE l

/-- Embedding of `LCDPolicyFinder.save_to_json` (lines 365-393): dedup, sort by the
numeric identifier, and build the output structure.  `int()` raising
`ValueError` on an unparseable identifier aborts the save; that is the
`none` case. -/
def save_to_json (now : List Char) (lcd_urls : List PolicyInfo) : Option Catalog :=
  if (dedupFirst lcd_urls []).all (fun r => (parseNat r.lcd_id).isSome) then
    some { search_date := now, total_policies := (dedupFirst lcd_urls []).length,
           source := sourceMark, policies := sortPolicies (dedupFirst lcd_urls []) }
  else none

/-- Embedding of `save_lcd_policies` of the quick finder (lines 102-119): sort only,
no dedup. -/
def save_lcd_policies (now : List Char) (policies : List PolicyInfo) : Option Catalog :=
  if policies.all (fun r => (parseNat r.lcd_id).isSome) then
    some { search_date := now, total_policies := policies.length,
           source := sourceMark, policies := sortPolicies policies }
  else none

/-! ## Bulk downloader sample selection (Step3_Download_Allpolicies.py) -/

/-- One entry of `All_urls.json` as read back by the downloader; `status`
is the optional `status` key (`p.get('status')`). -/
structure LoadedPolicy where
  lcd_id : List Char
  doc_id : List Char
  title : List Char
  url : List Char
  status : Option (List Char)
deriving DecidableEq

/-- Test for the estimated status marker, Python `p.get('status') == 'estimated'`. -/
def isEstimated (p : LoadedPolicy) : Bool := p.status == some "estimated".toList

/-- The sample-mode selection of `BulkLCDDownloader.load_policy_urls`
(lines 40-51): validated policies first, topped up with estimated ones
only when fewer than `sample_size` validated policies exist. -/
def load_policy_sample (policies : List LoadedPolicy) (sample_size : Nat) : List LoadedPolicy :=
  let validated := policies.filter (fun p => !isEstimated p)
  let estimated := policies.filter (fun p => isEstimated p)
  let sample := validated.take sample_size
  if sample.length < sample_size then
    sample ++ estimated.take (sample_size - sample.length)
  else sample

/-! ## The discovery invariant -/

/-- Invariant of the shared finder state: the accumulated records carry
pairwise distinct identifiers, each of which is already marked
processed. -/
def FinderInv (st : FinderState) : Prop :=
  (st.lcd_urls.map PolicyInfo.lcd_id).Nodup ∧
    ∀ r ∈ st.lcd_urls, r.lcd_id ∈ st.processed

instance : DecidablePred FinderInv := fun st => by
  unfold FinderInv; infer_instance


/-! ## Strict sort order (for stating the sort invariant as claimed) -/

/-- Strictly ascending numeric identifiers. -/
def polLT (a b : PolicyInfo) : Prop := keyOf a < keyOf b

instance : DecidableRel polLT := fun a b => Nat.decLt (keyOf a) (keyOf b)

/-! ## Concrete inputs used by counterexamples and witnesses -/

/-- A fixed timestamp standing in for `datetime.now().isoformat()`. -/
def dateEx : List Char := "2025-01-01T00:00:00".toList

/-- A page carrying the positive body marker together with negative
signals in its title. -/
def pgC1 : PageData :=
  { title := "Error - Page Not Found".toList,
    content := "Local Coverage Determination".toList,
    heading := none }

/-- A page whose title carries a negative signal and whose body lacks the
positive marker. -/
def pgC1neg : PageData :=
  { title := "Error".toList, content := "nothing".toList, heading := none }

/-- A valid-looking page whose content has no `L`-plus-digits code. -/
def pgC4 : PageData :=
  { title := "LCD Policy".toList, content := "Welcome page".toList, heading := none }

/-- Record for identifier 33822 as discovered by the seeded-validation
strategy (first in execution order). -/
def recSeeded33822 : PolicyInfo :=
  { lcd_id := "33822".toList, doc_id := "L33822".toList,
    title := "Glucose Monitors (SeededValidation)".toList,
    url := "https://www.cms.gov/medicare-coverage-database/view/lcd.aspx?LCDId=33822".toList,
    found_date := dateEx }

/-- Record for identifier 33822 as rediscovered by the range-probe
strategy (a later duplicate). -/
def recProbe33822 : PolicyInfo :=
  { lcd_id := "33822".toList, doc_id := "L33822".toList,
    title := "Glucose Monitors (RangeProbe)".toList,
    url := "https://www.cms.gov/medicare-coverage-database/view/lcd.aspx?LCDId=33822".toList,
    found_date := dateEx }

/-- Record for identifier 35000 from the range-probe strategy. -/
def recProbe35000 : PolicyInfo :=
  { lcd_id := "35000".toList, doc_id := "L35000".toList,
    title := "Molecular Pathology (RangeProbe)".toList,
    url := "https://www.cms.gov/medicare-coverage-database/view/lcd.aspx?LCDId=35000".toList,
    found_date := dateEx }

/-- A record whose identifier string is "1". -/
def rOne : PolicyInfo :=
  { lcd_id := "1".toList, doc_id := "L1".toList, title := "a".toList,
    url := "u".toList, found_date := dateEx }

/-- A record whose identifier string is "01": a distinct string with the
same numeric value 1. -/
def rZeroOne : PolicyInfo :=
  { lcd_id := "01".toList, doc_id := "L01".toList, title := "b".toList,
    url := "v".toList, found_date := dateEx }

/-- The catalog `save_to_json` produces from `[rOne, rZeroOne]`. -/
def catC3 : Catalog :=
  { search_date := dateEx, total_policies := 2, source := sourceMark,
    policies := [rOne, rZeroOne] }

/-- The catalog `save_to_json` produces from `[recProbe35000]`. -/
def catC3wit : Catalog :=
  { search_date := dateEx, total_policies := 1, source := sourceMark,
    policies := [recProbe35000] }

/-- A results-page anchor for LCD 33822. -/
def lk1 : LinkData :=
  { href := "lcd.aspx?LCDId=33822&DocID=L33822".toList,
    text := "Glucose Monitors".toList }

/-- A two-page site: page 1 yields one new identifier and has a next
link; every later page is empty with no next link. -/
def pgsEx : Nat → ResultsPage := fun n =>
  if n = 1 then { links := [lk1], hasNext := true }
  else { links := [], hasNext := false }

/-- The empty finder state. -/
def fs0 : FinderState := { lcd_urls := [], processed := [] }

/-- A finder state in which identifier 42 is already processed. -/
def fsP : FinderState := { lcd_urls := [], processed := [strOfNat 42] }

/-- The corresponding pattern-probe loop state. -/
def tkP : TKState := { st := fsP, found := 0, fetched := [] }

/-- An oracle under which every navigation succeeds but no page looks
like an LCD. -/
def tkOracle : Nat → Option PageData :=
  fun _ => some { title := [], content := [], heading := none }

/-- A finder state in which identifier 30000 (the first candidate of the
pattern probe) is already processed. -/
def tkSt0 : FinderState := { lcd_urls := [], processed := [strOfNat 30000] }

/-- A valid LCD page for the quick finder. -/
def okPage : PageData :=
  { title := "LCD Glucose".toList, content := [], heading := none }

/-- An oracle under which the fetch of candidate 111 fails and every
other fetch returns a valid page. -/
def c8oracle : Nat → Option PageData :=
  fun id => if id = 111 then none else some okPage

/-- A loaded policy marked `status = "estimated"`. -/
def pEstA : LoadedPolicy :=
  { lcd_id := "34000".toList, doc_id := "L34000".toList, title := "t".toList,
    url := "u".toList, status := some "estimated".toList }

/-! ## Lemmas about the dedup loop -/

theorem dedupFirst_filter (l : List PolicyInfo) (seen : List (List Char)) (id : List Char) :
    (dedupFirst l seen).filter (fun r => r.lcd_id == id) =
      if id ∈ seen then [] else (l.find? (fun r => r.lcd_id == id)).toList := by
  induction l generalizing seen with
  | nil =>
    by_cases h : id ∈ seen <;> simp [dedupFirst, h]
  | cons r rest ih =>
    by_cases hr : r.lcd_id ∈ seen
    · rw [dedupFirst, if_pos hr, ih]
      by_cases hid : id ∈ seen
      · simp [hid]
      · have hne : (r.lcd_id == id) = false := by
          simp only [beq_eq_false_iff_ne, ne_eq]
          intro he
          exact hid (he ▸ hr)
        simp [hid, List.find?_cons, hne]
    · rw [dedupFirst, if_neg hr]
      by_cases heq : r.lcd_id = id
      · subst heq
        simp [List.filter_cons, List.find?_cons, ih, hr]
      · have hne : (r.lcd_id == id) = false := by
          simp only [beq_eq_false_iff_ne, ne_eq]; exact heq
        rw [List.filter_cons, ih]
        by_cases hid : id ∈ seen
        · simp [hid, List.mem_cons, heq, hne]
        · have hmem : ¬ id ∈ r.lcd_id :: seen := by
            simp only [List.mem_cons, not_or]
            exact ⟨fun h => heq h.symm, hid⟩
          simp [hid, hmem, List.find?_cons, hne]

theorem dedupFirst_sublist (l : List PolicyInfo) (seen : List (List Char)) :
    (dedupFirst l seen).Sublist l := by
  induction l generalizing seen with
  | nil => simp [dedupFirst]
  | cons r rest ih =>
    by_cases hr : r.lcd_id ∈ seen
    · rw [dedupFirst, if_pos hr]
      exact (ih seen).cons r
    · rw [dedupFirst, if_neg hr]
      exact (ih (r.lcd_id :: seen)).cons₂ r

theorem dedupFirst_append (a b : List PolicyInfo) (s : List (List Char)) :
    dedupFirst (a ++ b) s = dedupFirst a s ++ dedupFirst b (seenAfter a s) := by
  induction a generalizing s with
  | nil => simp [dedupFirst, seenAfter]
  | cons r rest ih =>
    by_cases hr : r.lcd_id ∈ s
    · simp [dedupFirst, seenAfter, hr, ih]
    · simp [dedupFirst, seenAfter, hr, ih]

theorem mem_seenAfter (l : List PolicyInfo) (s : List (List Char)) (x : List Char)
    (hx : x ∈ s) : x ∈ seenAfter l s := by
  induction l generalizing s with
  | nil => simpa [seenAfter] using hx
  | cons r rest ih =>
    by_cases hr : r.lcd_id ∈ s
    · rw [seenAfter, if_pos hr]
      exact ih s hx
    · rw [seenAfter, if_neg hr]
      exact ih _ (List.mem_cons_of_mem _ hx)

theorem lcd_id_mem_seenAfter (r : PolicyInfo) :
    ∀ (l : List PolicyInfo) (s : List (List Char)), r ∈ l → r.lcd_id ∈ seenAfter l s := by
  intro l
  induction l with
  | nil =>
    intro s hr
    cases hr
  | cons q rest ih =>
    intro s hr
    rcases List.mem_cons.mp hr with h | h
    · subst h
      by_cases hq : r.lcd_id ∈ s
      · rw [seenAfter, if_pos hq]
        exact mem_seenAfter _ _ _ hq
      · rw [seenAfter, if_neg hq]
        exact mem_seenAfter _ _ _ (List.mem_cons_self _ _)
    · by_cases hq : q.lcd_id ∈ s
      · rw [seenAfter, if_pos hq]
        exact ih s h
      · rw [seenAfter, if_neg hq]
        exact ih _ h

theorem dedupFirst_eq_nil (l : List PolicyInfo) (s : List (List Char))
    (h : ∀ r ∈ l, r.lcd_id ∈ s) : dedupFirst l s = [] := by
  induction l with
  | nil => rfl
  | cons r rest ih =>
    rw [dedupFirst, if_pos (h r (List.mem_cons_self _ _))]
    exact ih (fun q hq => h q (List.mem_cons_of_mem _ hq))

theorem dedupFirst_idem (l : List PolicyInfo) :
    dedupFirst (l ++ l) [] = dedupFirst l [] := by
  rw [dedupFirst_append,
      dedupFirst_eq_nil l (seenAfter l []) (fun r hr => lcd_id_mem_seenAfter r l [] hr),
      List.append_nil]


/-! ## Lemmas about sorting and saving -/

theorem sorted_guarded (l : List PolicyInfo)
    (h : (l.all fun r => (parseNat r.lcd_id).isSome) = true) :
    (sortPolicies l).Chain' polLE ∧
      ∀ r ∈ sortPolicies l, (parseNat r.lcd_id).isSome = true := by
  refine ⟨(List.sorted_insertionSort polLE l).chain', ?_⟩
  intro r hr
  have hr' : r ∈ l := (List.perm_insertionSort polLE l).mem_iff.mp hr
  exact List.all_eq_true.mp h r hr'

theorem save_to_json_sorted (now : List Char) (l : List PolicyInfo) (cat : Catalog)
    (h : save_to_json now l = some cat) :
    cat.policies.Chain' polLE ∧ ∀ r ∈ cat.policies, (parseNat r.lcd_id).isSome = true := by
  unfold save_to_json at h
  by_cases hg : ((dedupFirst l []).all fun r => (parseNat r.lcd_id).isSome) = true
  · rw [if_pos hg] at h
    injection h with h
    subst h
    exact sorted_guarded _ hg
  · rw [if_neg hg] at h
    cases h

theorem save_lcd_policies_sorted (now : List Char) (l : List PolicyInfo) (cat : Catalog)
    (h : save_lcd_policies now l = some cat) :
    cat.policies.Chain' polLE ∧ ∀ r ∈ cat.policies, (parseNat r.lcd_id).isSome = true := by
  unfold save_lcd_policies at h
  by_cases hg : (l.all fun r => (parseNat r.lcd_id).isSome) = true
  · rw [if_pos hg] at h
    injection h with h
    subst h
    exact sorted_guarded _ hg
  · rw [if_neg hg] at h
    cases h

/-! ## Lemmas about the extracted document code -/

theorem findLNum_some_ne_nil (s d : List Char) (h : findLNum s = some d) : d ≠ [] := by
  induction s with
  | nil => cases h
  | cons c rest ih =>
    rw [findLNum] at h
    by_cases hc : c = 'L'
    · rw [if_pos hc] at h
      by_cases he : (rest.takeWhile Char.isDigit).isEmpty = true
      · rw [if_pos he] at h
        exact ih h
      · rw [if_neg he] at h
        injection h with h
        subst h
        exact List.cons_ne_nil _ _
    · rw [if_neg hc] at h
      exact ih h

theorem findDocID_some_ne_nil (s d : List Char) (h : findDocID s = some d) : d ≠ [] := by
  induction s with
  | nil => cases h
  | cons c rest ih =>
    rw [findDocID] at h
    by_cases hc : headMatches docIdParam (c :: rest) = true
    · rw [if_pos hc] at h
      by_cases he : (((c :: rest).drop 7).takeWhile Char.isDigit).isEmpty = true
      · rw [if_pos he] at h
        exact ih h
      · rw [if_neg he] at h
        injection h with h
        subst h
        exact List.cons_ne_nil _ _
    · rw [if_neg hc] at h
      exact ih h

theorem validate_lcd_url_lcd_id (now : List Char) (id : Nat) (o : Option PageData)
    (r : PolicyInfo) (h : validate_lcd_url now id o = some r) : r.lcd_id = strOfNat id := by
  cases o with
  | none => cases h
  | some pg =>
    simp only [validate_lcd_url] at h
    by_cases hv : simpleValidCond pg.title pg.content = true
    · rw [if_pos hv] at h
      injection h with h
      subst h
      rfl
    · rw [if_neg hv] at h
      cases h

/-! ## Lemmas about the invariant -/

theorem finderInv_append (st : FinderState) (r : PolicyInfo) (h : FinderInv st)
    (hr : r.lcd_id ∉ st.processed) :
    FinderInv { lcd_urls := st.lcd_urls ++ [r], processed := r.lcd_id :: st.processed } := by
  obtain ⟨hnd, hmem⟩ := h
  constructor
  · rw [List.map_append, List.nodup_append]
    refine ⟨hnd, List.nodup_singleton _, ?_⟩
    intro x hx hx'
    have hxr : x = r.lcd_id := by simpa using hx'
    subst hxr
    obtain ⟨q, hq, hqx⟩ := List.mem_map.mp hx
    exact hr (hqx ▸ hmem q hq)
  · intro q hq
    rcases List.mem_append.mp hq with h1 | h1
    · exact List.mem_cons_of_mem _ (hmem q h1)
    · have : q = r := by simpa using h1
      subst this
      exact List.mem_cons_self _ _


/-! ## Lemmas about the pagination loop -/

theorem extractAllGo_spec (now : List Char) (pages : Nat → ResultsPage) :
    ∀ (fuel pageNum : Nat) (st : FinderState),
      (extractAllGo now pages fuel pageNum st).2.length ≤ fuel ∧
      ∀ x ∈ (extractAllGo now pages fuel pageNum st).2.dropLast,
        x.1.hasNext = true ∧ 0 < x.2 := by
  intro fuel
  induction fuel with
  | zero =>
    intro pageNum st
    simp [extractAllGo]
  | succ fuel ih =>
    intro pageNum st
    simp only [extractAllGo]
    by_cases hc : ((pages pageNum).hasNext &&
        decide (0 < (processResultsPage now st (pages pageNum).links).lcd_urls.length -
          st.lcd_urls.length)) = true
    · rw [if_pos hc]
      obtain ⟨h1, h2'⟩ : (pages pageNum).hasNext = true ∧
          0 < (processResultsPage now st (pages pageNum).links).lcd_urls.length -
            st.lcd_urls.length := by
        simpa using hc
      constructor
      · exact Nat.succ_le_succ
          (ih (pageNum + 1) (processResultsPage now st (pages pageNum).links)).1
      · intro x hx
        rcases hr : (extractAllGo now pages fuel (pageNum + 1)
            (processResultsPage now st (pages pageNum).links)).2 with _ | ⟨y, ys⟩
        · rw [hr] at hx
          simp at hx
        · rw [hr, List.dropLast_cons₂] at hx
          rcases List.mem_cons.mp hx with h | h
          · subst h
            exact ⟨h1, h2'⟩
          · exact (ih (pageNum + 1)
              (processResultsPage now st (pages pageNum).links)).2 x (by rw [hr]; exact h)
    · rw [if_neg hc]
      constructor
      · exact Nat.succ_le_succ (Nat.zero_le fuel)
      · intro x hx
        simp at hx

/-! ## Lemmas about the sample selection -/

theorem load_policy_sample_spec (ps : List LoadedPolicy) (n : Nat) :
    (load_policy_sample ps n).length ≤ n ∧
    load_policy_sample ps n =
      (ps.filter (fun p => !isEstimated p)).take n ++
        (load_policy_sample ps n).filter (fun p => isEstimated p) ∧
    ∀ p ∈ load_policy_sample ps n, isEstimated p = true →
      (ps.filter (fun p => !isEstimated p)).length < n := by
  have hv : ∀ p ∈ (ps.filter (fun p => !isEstimated p)).take n, isEstimated p = false := by
    intro p hp
    have := List.mem_filter.mp (List.mem_of_mem_take hp)
    simpa using this.2
  have he : ∀ k, ∀ p ∈ (ps.filter (fun p => isEstimated p)).take k, isEstimated p = true := by
    intro k p hp
    exact (List.mem_filter.mp (List.mem_of_mem_take hp)).2
  have hfv : ((ps.filter (fun p => !isEstimated p)).take n).filter
      (fun p => isEstimated p) = [] := by
    rw [List.filter_eq_nil_iff]
    intro p hp
    simp [hv p hp]
  unfold load_policy_sample
  by_cases hlt : ((ps.filter (fun p => !isEstimated p)).take n).length < n
  · rw [if_pos hlt]
    have hvlen : (ps.filter (fun p => !isEstimated p)).length < n := by
      have := List.length_take n (ps.filter (fun p => !isEstimated p))
      omega
    have hfe : ((ps.filter (fun p => isEstimated p)).take
        (n - ((ps.filter (fun p => !isEstimated p)).take n).length)).filter
        (fun p => isEstimated p) =
        (ps.filter (fun p => isEstimated p)).take
          (n - ((ps.filter (fun p => !isEstimated p)).take n).length) := by
      rw [List.filter_eq_self]
      intro p hp
      exact he _ p hp
    refine ⟨?_, ?_, ?_⟩
    · rw [List.length_append]
      have h1 := List.length_take n (ps.filter (fun p => !isEstimated p))
      have h2 := List.length_take
        (n - ((ps.filter (fun p => !isEstimated p)).take n).length)
        (ps.filter (fun p => isEstimated p))
      omega
    · rw [List.filter_append, hfv, hfe, List.nil_append]
    · intro p _ _
      exact hvlen
  · rw [if_neg hlt]
    refine ⟨?_, ?_, ?_⟩
    · have := List.length_take n (ps.filter (fun p => !isEstimated p))
      omega
    · rw [hfv, List.append_nil]
    · intro p hp hest
      rw [hv p hp] at hest
      cases hest


/-! ## Claims -/

/-- C1 counterexample: a page whose body carries the positive marker
"Local Coverage Determination" while its title contains both negative
signals "Error" and "Not Found" is still accepted by
`SimpleLCDFinder.validate_lcd_url` — a record is produced, so negative
signals do not take precedence over the positive body marker. -/
theorem classifier_negative_precedence_cex :
    containsSub lcdLongMark pgC1.content = true ∧
    containsSub errMark pgC1.title = true ∧
    containsSub nfMark pgC1.title = true ∧
    validate_lcd_url dateEx 500 (some pgC1) ≠ none :=
  ⟨by decide, by decide, by decide, by decide⟩

/-- C1 (amended): negative signals take precedence only against the
title-based positive marker.  In the Simple finder, when the body lacks
"Local Coverage Determination", a title containing "Error" or
"Not Found" yields no record; in the Quick finder (which only consults
the title) a title containing "Error" or "Not Found" always fails
validation. -/
theorem classifier_negative_precedence_amended :
    (∀ (now : List Char) (id : Nat) (pg : PageData),
        containsSub lcdLongMark pg.content = false →
        (containsSub errMark pg.title = true ∨ containsSub nfMark pg.title = true) →
        validate_lcd_url now id (some pg) = none) ∧
    (∀ title : List Char,
        (containsSub errMark title = true ∨ containsSub nfMark title = true) →
        quickValidCond title = false) := by
  constructor
  · intro now id pg h1 h2
    have hc : simpleValidCond pg.title pg.content = false := by
      unfold simpleValidCond
      rw [h1]
      rcases h2 with h | h <;> simp [h]
    simp [validate_lcd_url, hc]
  · intro title h
    unfold quickValidCond
    rcases h with h | h <;> simp [h]

/-- C1 witness: the amended theorem applied at a concrete page and a
concrete title. -/
theorem classifier_negative_precedence_amended_wit :
    validate_lcd_url dateEx 600 (some pgC1neg) = none ∧
    quickValidCond "LCD Not Found".toList = false :=
  ⟨classifier_negative_precedence_amended.1 dateEx 600 pgC1neg (by decide) (Or.inl (by decide)),
   classifier_negative_precedence_amended.2 "LCD Not Found".toList (Or.inr (by decide))⟩

/-- C2: `save_to_json` keeps, for every identifier, exactly the first
record of the input bearing it (the deduplicated list restricted to an
identifier equals the first find), the kept records appear in input
order (sublist), and merging the scenario
[SeededValidation 33822, RangeProbe 33822, RangeProbe 35000] yields
exactly two records, 33822 carrying the seeded strategy's data, sorted
[33822, 35000]. -/
theorem merge_first_wins :
    (∀ (l : List PolicyInfo) (id : List Char),
        (dedupFirst l []).filter (fun r => r.lcd_id == id) =
          (l.find? (fun r => r.lcd_id == id)).toList) ∧
    (∀ l : List PolicyInfo, (dedupFirst l []).Sublist l) ∧
    save_to_json dateEx [recSeeded33822, recProbe33822, recProbe35000] =
      some { search_date := dateEx, total_policies := 2, source := sourceMark,
             policies := [recSeeded33822, recProbe35000] } := by
  refine ⟨?_, ?_, by decide⟩
  · intro l id
    simpa using dedupFirst_filter l [] id
  · intro l
    exact dedupFirst_sublist l []

/-- C3 counterexample: the records "1" and "01" carry distinct
identifier strings with the same numeric value; `save_to_json` keeps
both, and the resulting catalog is not strictly ascending (the adjacent
pair has equal keys), refuting the strict sort invariant. -/
theorem catalog_sort_strict_cex :
    save_to_json dateEx [rOne, rZeroOne] = some catC3 ∧
    ¬ catC3.policies.Chain' polLT := by
  refine ⟨by decide, ?_⟩
  intro h
  rw [show catC3.policies = [rOne, rZeroOne] from rfl] at h
  exact absurd (List.chain'_cons.mp h).1 (by decide)

/-- C3 (amended): every catalog either saver produces is sorted
non-strictly ascending by the numeric value of the identifier (strictness
fails only when two distinct identifier strings share a numeric value,
which dedup by string does not preclude), and every identifier in a
produced catalog parses as an integer. -/
theorem catalog_sort_amended :
    (∀ (now : List Char) (l : List PolicyInfo) (cat : Catalog),
        save_to_json now l = some cat →
        cat.policies.Chain' polLE ∧ ∀ r ∈ cat.policies, (parseNat r.lcd_id).isSome = true) ∧
    (∀ (now : List Char) (l : List PolicyInfo) (cat : Catalog),
        save_lcd_policies now l = some cat →
        cat.policies.Chain' polLE ∧ ∀ r ∈ cat.policies, (parseNat r.lcd_id).isSome = true) :=
  ⟨save_to_json_sorted, save_lcd_policies_sorted⟩

/-- C3 witness: the amended theorem applied to the concrete catalog saved
from a one-record list. -/
theorem catalog_sort_amended_wit :
    catC3wit.policies.Chain' polLE :=
  (catalog_sort_amended.1 dateEx [recProbe35000] catC3wit (by decide)).1

/-- C4: when the fetched content has no match of the `L`-plus-digits
pattern, the record built by `validate_lcd_url` carries the derived code
"L" ++ identifier; any produced record's code is nonempty; and the
per-link document code of `extract_all_lcd_results` falls back to
"L" ++ identifier when neither the href nor the link text yields a code,
and is never empty. -/
theorem doc_code_fallback :
    (∀ (now : List Char) (id : Nat) (pg : PageData) (r : PolicyInfo),
        findLNum pg.content = none →
        validate_lcd_url now id (some pg) = some r →
        r.doc_id = 'L' :: strOfNat id) ∧
    (∀ (now : List Char) (id : Nat) (o : Option PageData) (r : PolicyInfo),
        validate_lcd_url now id o = some r → r.doc_id ≠ []) ∧
    (∀ href text lcd_id : List Char,
        findDocID href = none → findLNum text = none →
        resultDocId href text lcd_id = 'L' :: lcd_id) ∧
    (∀ href text lcd_id : List Char, resultDocId href text lcd_id ≠ []) := by
  refine ⟨?_, ?_, ?_, ?_⟩
  · intro now id pg r h1 h2
    simp only [validate_lcd_url] at h2
    by_cases hv : simpleValidCond pg.title pg.content = true
    · rw [if_pos hv] at h2
      injection h2 with h2
      subst h2
      simp [h1]
    · rw [if_neg hv] at h2
      cases h2
  · intro now id o r h
    cases o with
    | none => cases h
    | some pg =>
      simp only [validate_lcd_url] at h
      by_cases hv : simpleValidCond pg.title pg.content = true
      · rw [if_pos hv] at h
        injection h with h
        subst h
        cases hf : findLNum pg.content with
        | none => simp [hf]
        | some d =>
          simp only [hf, Option.getD_some]
          exact findLNum_some_ne_nil _ _ hf
      · rw [if_neg hv] at h
        cases h
  · intro href text lcd_id h1 h2
    simp [resultDocId, h1, h2]
  · intro href text lcd_id
    unfold resultDocId
    cases h1 : findDocID href with
    | some d => exact findDocID_some_ne_nil _ _ h1
    | none =>
      cases h2 : findLNum text with
      | some d => exact findLNum_some_ne_nil _ _ h2
      | none => exact List.cons_ne_nil _ _

/-- C4 witness: the fallback theorem applied to a concrete valid page
whose content has no extractable code. -/
theorem doc_code_fallback_wit :
    ((validate_lcd_url dateEx 777 (some pgC4)).getD defInfo).doc_id = 'L' :: strOfNat 777 :=
  doc_code_fallback.1 dateEx 777 pgC4 ((validate_lcd_url dateEx 777 (some pgC4)).getD defInfo)
    (by decide) (by decide)

/-- C5: merging a record list concatenated with itself saves exactly the
same catalog as merging it once (the deduplicating merge is idempotent
under duplicated input). -/
theorem merge_idempotent (now : List Char) (l : List PolicyInfo) :
    save_to_json now (l ++ l) = save_to_json now l := by
  unfold save_to_json
  rw [dedupFirst_idem]

/-- C6: the pagination loop of `extract_all_lcd_results` always
terminates after at most 50 result pages, and every processed page
except the last one had a next-page link and yielded at least one new
identifier — i.e. the loop stops as soon as a page yields zero new
identifiers or lacks a next-page link. -/
theorem pagination_bounded (now : List Char) (pages : Nat → ResultsPage) (st : FinderState) :
    (extract_all_lcd_results now pages st).2.length ≤ 50 ∧
    ∀ x ∈ (extract_all_lcd_results now pages st).2.dropLast,
      x.1.hasNext = true ∧ 0 < x.2 := by
  unfold extract_all_lcd_results
  exact extractAllGo_spec now pages 50 1 st

/-- C6 witness: the pagination theorem applied to a concrete two-page
site; the first processed page (the non-final one) had a next-page link
and one new identifier. -/
theorem pagination_bounded_wit :
    (extract_all_lcd_results dateEx pgsEx fs0).2.length ≤ 50 ∧
    ((pgsEx 1).hasNext = true ∧ 0 < 1) :=
  ⟨(pagination_bounded dateEx pgsEx fs0).1,
   (pagination_bounded dateEx pgsEx fs0).2 (pgsEx 1, 1) (by decide)⟩


set_option maxRecDepth 8000

/-- C7 counterexample: with identifier 30000 already in the shared
processed set, the pattern-probe strategy of the full finder still
issues the navigation for it — `page.goto` happens before the
membership check — so processed identifiers are fetched again. -/
theorem processed_skip_cex :
    strOfNat 30000 ∈ tkSt0.processed ∧
    30000 ∈ (try_known_lcd_patterns dateEx tkOracle tkSt0).fetched :=
  ⟨by decide, by decide⟩

/-- C7 (amended): the Simple finder's systematic scan neither fetches
nor emits a record for an identifier that is already processed when the
scan reaches it; the full finder's pattern-probe strategy checks
membership only before emission — it emits no record and leaves the
shared state unchanged for a processed identifier, but still issues the
fetch. -/
theorem processed_skip_amended :
    (∀ (now : List Char) (oracle : Nat → Option PageData) (st : FinderState) (id : Nat),
        strOfNat id ∈ st.processed → systematicStep now oracle st id = (st, [])) ∧
    (∀ (now : List Char) (oracle : Nat → Option PageData) (s : TKState) (id : Nat),
        strOfNat id ∈ s.st.processed →
        (tryKnownStep now oracle s id).st.lcd_urls = s.st.lcd_urls ∧
        (tryKnownStep now oracle s id).st.processed = s.st.processed) := by
  constructor
  · intro now oracle st id h
    unfold systematicStep
    rw [if_pos h]
  · intro now oracle s id h
    unfold tryKnownStep
    by_cases hf : 10 ≤ s.found
    · rw [if_pos hf]
      exact ⟨rfl, rfl⟩
    · rw [if_neg hf]
      cases ho : oracle id with
      | none => exact ⟨rfl, rfl⟩
      | some pg =>
        dsimp only
        by_cases h1 : (containsSub lcdMark pg.title && !containsSub errMark pg.title) = true
        · rw [if_pos h1]
          by_cases h2 : containsSub lcdLongMark pg.content = true
          · rw [if_pos h2, if_pos h]
            exact ⟨rfl, rfl⟩
          · rw [if_neg h2]
            exact ⟨rfl, rfl⟩
        · rw [if_neg h1]
          exact ⟨rfl, rfl⟩

/-- C7 witness: the amended theorem applied at a state in which
identifier 42 is already processed. -/
theorem processed_skip_amended_wit :
    systematicStep dateEx (fun _ => none) fsP 42 = (fsP, []) ∧
    (tryKnownStep dateEx (fun _ => none) tkP 42).st.lcd_urls = tkP.st.lcd_urls :=
  ⟨processed_skip_amended.1 dateEx (fun _ => none) fsP 42 (by decide),
   (processed_skip_amended.2 dateEx (fun _ => none) tkP 42 (by decide)).1⟩

/-- C8 counterexample: the quick scan leaves no trace of a failed fetch.
A run whose first candidate's fetch fails is observationally identical
to the run without that candidate, and a run consisting only of the
failing candidate ends in the initial state — so the error is skipped
silently, not counted anywhere. -/
theorem fetch_failure_cex :
    c8oracle 111 = none ∧
    quickScan dateEx c8oracle [111, 222] = quickScan dateEx c8oracle [222] ∧
    quickScan dateEx c8oracle [111] = { lcd_policies := [], found := 0 } :=
  ⟨by decide, by decide, by decide⟩

/-- C8 (amended): a candidate whose fetch fails is skipped silently —
no record is emitted, no diagnostic count is kept, and the failure never
aborts the scan, which continues exactly as if the candidate were
absent and returns the records found for all other candidates; the
Simple finder's per-candidate probe likewise emits nothing on a failed
fetch and moves on. -/
theorem fetch_failure_skip_amended :
    (∀ (now : List Char) (oracle : Nat → Option PageData) (pre post : List Nat) (badId : Nat),
        oracle badId = none →
        quickScan now oracle (pre ++ badId :: post) = quickScan now oracle (pre ++ post)) ∧
    (∀ (now : List Char) (oracle : Nat → Option PageData) (st : FinderState) (id : Nat),
        oracle id = none → strOfNat id ∉ st.processed →
        systematicStep now oracle st id = (st, [id])) := by
  constructor
  · intro now oracle pre post badId h
    unfold quickScan
    rw [List.foldl_append, List.foldl_append, List.foldl_cons]
    have hstep : quickStep now oracle
        (List.foldl (quickStep now oracle) { lcd_policies := [], found := 0 } pre) badId =
        List.foldl (quickStep now oracle) { lcd_policies := [], found := 0 } pre := by
      unfold quickStep
      rw [h]
    rw [hstep]
  · intro now oracle st id h1 h2
    unfold systematicStep
    rw [if_neg h2, h1]
    rfl

/-- C8 witness: the amended theorem applied with the concrete oracle
that fails on candidate 111. -/
theorem fetch_failure_skip_amended_wit :
    quickScan dateEx c8oracle ([] ++ 111 :: [222]) = quickScan dateEx c8oracle ([] ++ [222]) ∧
    systematicStep dateEx c8oracle fs0 111 = (fs0, [111]) :=
  ⟨fetch_failure_skip_amended.1 dateEx c8oracle [] [222] 111 (by decide),
   fetch_failure_skip_amended.2 dateEx c8oracle fs0 111 (by decide) (by decide)⟩

/-- C9: the discovery operations preserve the state invariant that the
accumulated records carry pairwise distinct identifiers, each a member
of the processed set: both the link-extraction step of the full finder
and the systematic probe step of the Simple finder append a record only
after the membership check and always pair the append with marking the
identifier processed. -/
theorem discovery_invariant :
    (∀ (now : List Char) (st : FinderState) (lk : LinkData),
        FinderInv st → FinderInv (extractLinkStep now st lk)) ∧
    (∀ (now : List Char) (oracle : Nat → Option PageData) (st : FinderState) (id : Nat),
        FinderInv st → FinderInv (systematicStep now oracle st id).1) := by
  constructor
  · intro now st lk h
    unfold extractLinkStep
    by_cases hcond :
        (containsSub "lcd.aspx".toList lk.href && containsSub lcdIdParam lk.href) = true
    · rw [if_pos hcond]
      cases hl : findLCDId lk.href with
      | none => exact h
      | some lcd_id =>
        cases hd : findDocID lk.href with
        | none => exact h
        | some doc_id =>
          dsimp only
          by_cases hmem : lcd_id ∈ st.processed
          · rw [if_pos hmem]
            exact h
          · rw [if_neg hmem]
            exact finderInv_append st
              { lcd_id := lcd_id, doc_id := doc_id, title := linkTitle lk.text doc_id,
                url := fullUrl lk.href, found_date := now } h hmem
    · rw [if_neg hcond]
      exact h
  · intro now oracle st id h
    unfold systematicStep
    by_cases hmem : strOfNat id ∈ st.processed
    · rw [if_pos hmem]
      exact h
    · rw [if_neg hmem]
      cases hv : validate_lcd_url now id (oracle id) with
      | none => exact h
      | some policy =>
        have hpid : policy.lcd_id = strOfNat id :=
          validate_lcd_url_lcd_id now id (oracle id) policy hv
        show FinderInv
          { lcd_urls := st.lcd_urls ++ [policy], processed := strOfNat id :: st.processed }
        rw [← hpid]
        exact finderInv_append st policy h (by rw [hpid]; exact hmem)

/-- C9 witness: the preservation theorem applied at the empty state. -/
theorem discovery_invariant_wit :
    FinderInv (extractLinkStep dateEx fs0 lk1) ∧
    FinderInv (systematicStep dateEx tkOracle fs0 33822).1 :=
  ⟨discovery_invariant.1 dateEx fs0 lk1 (by decide),
   discovery_invariant.2 dateEx tkOracle fs0 33822 (by decide)⟩

/-- C10: in sample mode the downloader selects at most `sample_size`
policies; the selection is the first `sample_size` non-estimated
policies in original order followed only by estimated ones; and an
estimated policy is included only when fewer than `sample_size`
non-estimated policies exist. -/
theorem sample_selection (ps : List LoadedPolicy) (n : Nat) :
    (load_policy_sample ps n).length ≤ n ∧
    load_policy_sample ps n =
      (ps.filter (fun p => !isEstimated p)).take n ++
        (load_policy_sample ps n).filter (fun p => isEstimated p) ∧
    ∀ p ∈ load_policy_sample ps n, isEstimated p = true →
      (ps.filter (fun p => !isEstimated p)).length < n :=
  load_policy_sample_spec ps n

/-- C10 witness: the selection theorem applied to a one-element list
whose only policy is estimated, with sample size one. -/
theorem sample_selection_wit :
    (load_policy_sample [pEstA] 1).length ≤ 1 ∧
    ([pEstA].filter (fun p => !isEstimated p)).length < 1 :=
  ⟨(sample_selection [pEstA] 1).1,
   (sample_selection [pEstA] 1).2.2 pEstA (by decide) (by decide)⟩

